import Mathlib

set_option autoImplicit false

namespace Vigilare

/-! # Shallow embedding of the Vigilare search system

Definitions transcribe the Python sources under `src/vigilare/`
(`app/routes.py`, `crawler/bot.py`, `indexer.py`).  Python strings are
modelled as Lean `String` (ASCII model of `str.lower`), Python floats as `ℚ`,
and library functions with no influence on control flow (`math.log10`,
`math.exp`, `tldextract`, `datetime`) are passed in as explicit parameters. -/

/-! ## Python string primitives -/

/-- Whitespace characters recognised by Python `str.split()` / `str.strip()`. -/
def pyIsSpace (c : Char) : Bool :=
  c == ' ' || c == '\t' || c == '\n' || c == '\r' || c == '\x0b' || c == '\x0c'

/-- ASCII model of Python `str.lower` on a single character (the shape of
core `Char.toLower`). -/
def pyToLower (c : Char) : Char :=
  if 65 ≤ c.toNat ∧ c.toNat ≤ 90 then Char.ofNat (c.toNat + 32) else c

/-- ASCII model of Python `str.lower`. -/
def pyLowerStr (s : String) : String :=
  String.mk (s.toList.map pyToLower)

/-- Model of Python `str.strip()` with no argument: remove whitespace from
both ends. -/
def pyStripWS (s : String) : String :=
  String.mk (((s.toList.dropWhile pyIsSpace).reverse.dropWhile pyIsSpace).reverse)

/-- Boolean test that a list starts with the given segment (model of
Python substring matching at position 0). -/
def hasPre : List Char → List Char → Bool
  | [], _ => true
  | _ :: _, [] => false
  | a :: as, b :: bs => a == b && hasPre as bs

/-- Boolean test that `sub` occurs as a contiguous segment of the second list. -/
def hasSub : List Char → List Char → Bool
  | sub, [] => sub.isEmpty
  | sub, c :: t => hasPre sub (c :: t) || hasSub sub t

/-- Model of the Python containment test `sub in hay` on strings. -/
def containsSub (hay sub : String) : Bool :=
  hasSub sub.toList hay.toList

/-- Lowercase ASCII letter or digit (character class `[a-z0-9]`). -/
def isLowerAlnum (c : Char) : Bool :=
  (decide ('a' ≤ c) && decide (c ≤ 'z')) || (decide ('0' ≤ c) && decide (c ≤ '9'))

/-- Groups maximal runs of characters satisfying `keep`, discarding the rest;
the second argument is the (reversed) run being accumulated.  This is the
common shape of Python `str.split()` and `re.findall` of a character class. -/
def groupRuns (keep : Char → Bool) : List Char → List Char → List String
  | [], acc => if acc.isEmpty then [] else [String.mk acc.reverse]
  | c :: t, acc =>
    if keep c then groupRuns keep t (c :: acc)
    else if acc.isEmpty then groupRuns keep t []
    else String.mk acc.reverse :: groupRuns keep t []

/-- Model of Python `str.split()` with no separator: split on whitespace runs,
dropping empty pieces. -/
def pySplitWS (s : String) : List String :=
  groupRuns (fun c => !pyIsSpace c) s.toList []

/-- Embedding of `routes.tokenise`: `re.findall(r"[a-z0-9]+", text.lower())`. -/
def tokenise (text : String) : List String :=
  groupRuns isLowerAlnum (text.toList.map pyToLower) []

/-- Model of Python `str.lstrip` with a single strip character. -/
def pyLstripChar (c : Char) (l : List Char) : List Char :=
  l.dropWhile (· == c)

/-- Model of Python `str.rstrip` with a single strip character. -/
def pyRstripChar (c : Char) (l : List Char) : List Char :=
  (l.reverse.dropWhile (· == c)).reverse

/-- Model of Python `url.strip("/")`. -/
def pyStripSlashes (s : String) : String :=
  String.mk (pyRstripChar '/' (pyLstripChar '/' s.toList))

/-- Model of Python `s.rstrip("/")`. -/
def pyRstripSlash (s : String) : String :=
  String.mk (pyRstripChar '/' s.toList)

/-- Model of `re.sub(r"^https?://(www\.)?", "", s)`. -/
def stripSchemeWWW (s : String) : String :=
  let dropWWW := fun (t : String) => if t.startsWith "www." then t.drop 4 else t
  if s.startsWith "https://" then dropWWW (s.drop 8)
  else if s.startsWith "http://" then dropWWW (s.drop 7)
  else s

/-- Embedding of the URL normalisation used by the pre-scoring dedup in
`routes.search`: `re.sub(r"^https?://(www\.)?", "", url.strip("/")).rstrip("/")`. -/
def normUrl (url : String) : String :=
  pyRstripSlash (stripSchemeWWW (pyStripSlashes url))

/-- Finds the first `://` marker and returns what follows it, the way
`urllib.parse.urlparse` locates the authority component of an absolute URL. -/
def afterMarker : List Char → Option (List Char)
  | ':' :: '/' :: '/' :: rest => some rest
  | _ :: t => afterMarker t
  | [] => none

/-- Model of `urlparse(url).netloc` for the absolute http(s) URLs the system
stores: the segment after `://` up to the first `/`, `?` or `#`; empty when the
URL has no `://`. -/
def pyNetloc (url : String) : String :=
  match afterMarker url.toList with
  | none => ""
  | some rest => String.mk (rest.takeWhile (fun c => c != '/' && c != '?' && c != '#'))

/-- Model of `urlparse(url).path` for the same class of URLs: what follows the
authority, with query and fragment removed. -/
def pyPath (url : String) : String :=
  match afterMarker url.toList with
  | none => String.mk (url.toList.takeWhile (fun c => c != '?' && c != '#'))
  | some rest =>
    String.mk (((rest.dropWhile (fun c => c != '/' && c != '?' && c != '#')).takeWhile
      (fun c => c != '?' && c != '#')))

/-- Order-preserving first-occurrence deduplication, the effect of Python
`list(dict.fromkeys(tokens))`; `seen` collects keys already emitted. -/
def dedupeAux (seen : List String) : List String → List String
  | [] => []
  | t :: rest =>
    if t ∈ seen then dedupeAux seen rest else t :: dedupeAux (t :: seen) rest

/-! ## routes.py: query utilities -/

/-- Embedding of `routes.STOPWORDS`. -/
def STOPWORDS : List String :=
  ["the", "a", "an", "of", "to", "and", "in", "on", "for", "with", "at", "by",
   "from", "how", "what", "why", "when", "where", "is", "are", "be", "this",
   "that", "it", "its"]

/-- Embedding of the `routes.SYNONYMS` table as a lookup with default `[]`
(Python `SYNONYMS.get(t, [])`). -/
def synonymsOf (t : String) : List String :=
  if t = "install" then ["setup", "configure"]
  else if t = "setup" then ["install", "configure"]
  else if t = "error" then ["issue", "problem"]
  else if t = "bug" then ["issue", "defect"]
  else if t = "security" then ["infosec", "cybersecurity"]
  else if t = "auth" then ["authentication", "login"]
  else if t = "login" then ["authentication", "auth"]
  else if t = "network" then ["net", "networking"]
  else if t = "linux" then ["gnu", "unix"]
  else if t = "windows" then ["win"]
  else []

/-- Embedding of `routes.normalise_tokens`: lower-case, replace characters
outside `[a-z0-9\s]` by spaces, split on whitespace, drop stop-words and
length-1 tokens, deduplicate preserving order, cap at `MAX_QUERY_TERMS = 7`. -/
def normalise_tokens (raw : String) : List String :=
  let lowered := raw.toList.map pyToLower
  let cleaned := lowered.map (fun c => if isLowerAlnum c || pyIsSpace c then c else ' ')
  let tokens := groupRuns (fun c => !pyIsSpace c) cleaned []
  let kept := tokens.filter (fun t => !(STOPWORDS.contains t) && decide (1 < t.length))
  (dedupeAux [] kept).take 7

/-- Embedding of the base-term selection in `routes.search`: the normalised
tokens, or, when they come out empty, the raw lower-cased
whitespace-split words (`raw_query.lower().split()`). -/
def searchBaseTerms (raw : String) : List String :=
  let base := normalise_tokens raw
  if base = [] then pySplitWS (pyLowerStr raw) else base

/-- Embedding of `routes.normalise_for_brand`:
`re.sub(r"[^a-z0-9]", "", raw.lower())`. -/
def normalise_for_brand (raw : String) : String :=
  String.mk ((raw.toList.map pyToLower).filter isLowerAlnum)

/-- Embedding of `routes.expand_terms`: the base terms followed by their
synonyms, deduplicated preserving order. -/
def expand_terms (base_terms : List String) : List String :=
  dedupeAux [] (base_terms ++ List.flatten (base_terms.map synonymsOf))

/-- Embedding of `routes.term_weights` as the lookup function of the built
dictionary (`weights.get(t, 0.0)` returns `0` off the expanded set):
per-term weight `1 + min(1.5, len/6)`, halved for synonym-only variants. -/
def term_weights (original_terms expanded_terms : List String) (t : String) : ℚ :=
  if t ∈ expanded_terms then
    (1 + min (3 / 2) ((t.length : ℚ) / 6)) * (if t ∈ original_terms then 1 else 1 / 2)
  else 0

/-- Embedding of `routes.build_fts_query`: each base term becomes the group
`("t" OR "t"* OR "syn" ...)`; groups are joined with AND or OR per `mode`. -/
def build_fts_query (base_terms : List String) (mode : String) : String :=
  if base_terms = [] then ""
  else
    let quote := fun (t : String) => "\"" ++ t ++ "\""
    let groups := base_terms.map (fun t =>
      let variants := [quote t, quote t ++ "*"] ++ (synonymsOf t).map quote
      "(" ++ String.intercalate " OR " variants ++ ")")
    String.intercalate (if mode = "AND" then " AND " else " OR ") groups

/-! ## routes.py: the /icon endpoint -/

/-- Characters kept by the `/icon` sanitiser, the class `[a-zA-Z0-9.-]` of
`re.sub(r"[^a-zA-Z0-9.-]", "", domain)`. -/
def iconAllowed (c : Char) : Bool :=
  (decide ('a' ≤ c) && decide (c ≤ 'z')) || (decide ('A' ≤ c) && decide (c ≤ 'Z')) ||
  (decide ('0' ≤ c) && decide (c ≤ '9')) || c == '.' || c == '-'

/-- Embedding of the sanitisation in `routes.icon_proxy`:
`re.sub(r"[^a-zA-Z0-9.-]", "", domain)[:50]`. -/
def icon_sanitise (domain : String) : String :=
  String.mk ((domain.toList.filter iconAllowed).take 50)

/-- Embedding of the cache file name built by `routes.icon_proxy`:
`f"{domain}.ico"` after sanitisation. -/
def icon_filename (domain : String) : String :=
  icon_sanitise domain ++ ".ico"

/-! ## routes.py: scoring

A candidate row as produced by the FTS join in `routes.search`; optional
fields model SQL NULL / missing dictionary keys. -/

structure SRow where
  url : String
  title : Option String
  description : Option String
  content_sample : Option String
  crawled_at : Option String
  language : Option String
  domain_rank : Option ℕ
  page_rank : Option ℚ
  bm25 : Option ℚ
  deriving DecidableEq, Repr

/-- External functions used by the scorer: the math library, the clock and
date parser behind `freshness_score`, and `tldextract`.  They are parameters
of the embedding because their values do not come from this repository. -/
structure ScoreEnv where
  log10 : ℚ → ℚ
  loge : ℚ → ℚ
  expe : ℚ → ℚ
  ageDays : String → Option ℚ
  extractDomain : String → String
  extractSuffix : String → String

/-- Embedding of `routes.saturation`: `min(val / cap, 1.0)`. -/
def saturation (val cap : ℚ) : ℚ :=
  min (val / cap) 1

/-- Embedding of `routes.authority_score`: `0` for a falsy rank (`None` or
`0`), else `min(160 / (1 + log10(rank + 10)), 60)`. -/
def authority_score (log10 : ℚ → ℚ) (rank : Option ℕ) : ℚ :=
  match rank with
  | none => 0
  | some r =>
    if r = 0 then 0
    else min (160 / (1 + log10 ((r : ℚ) + 10))) 60

/-- Embedding of `routes.pagerank_score`: `0` for a falsy or non-positive
value, else `log(pr * 10 + 1) * 15`. -/
def pagerank_score (loge : ℚ → ℚ) (pr_val : Option ℚ) : ℚ :=
  match pr_val with
  | none => 0
  | some v => if v ≤ 0 then 0 else loge (v * 10 + 1) * 15

/-- Embedding of `routes.freshness_score`: `25 * exp(-age_days / 200)` where
the age comes from parsing `crawled_at`; `0` on a falsy value or parse error. -/
def freshness_score (expe : ℚ → ℚ) (ageDays : String → Option ℚ)
    (crawled_at : Option String) : ℚ :=
  match crawled_at with
  | none => 0
  | some s =>
    if s = "" then 0
    else
      match ageDays s with
      | none => 0
      | some age => 25 * expe (-age / 200)

/-- Embedding of `routes.tld_bias`: `+15` for gov/edu/org, `+8` for
io/dev/net, else `0`. -/
def tld_bias (suffix : String) : ℚ :=
  if suffix = "" then 0
  else if suffix = "gov" ∨ suffix = "edu" ∨ suffix = "org" then 15
  else if suffix = "io" ∨ suffix = "dev" ∨ suffix = "net" then 8
  else 0

/-- Embedding of `routes.url_quality`: `-4` per path depth beyond 3, `-12` for
a query string, `+2` per path token capped at `+10`, `+12` for a root path. -/
def url_quality (pathS raw_url : String) : ℚ :=
  let depth := (pathS.toList.filter (· == '/')).length
  let score : ℚ := -(((max 0 ((depth : ℤ) - 3)) : ℤ) : ℚ) * 4
  let score := if raw_url.toList.contains '?' then score - 12 else score
  let score := score + min 10 ((tokenise pathS).length * 2 : ℚ)
  if pathS = "" ∨ pathS = "/" then score + 12 else score

/-- Embedding of `routes.multi_term_proximity`: positions of tokens hit by any
term; `30 / (1 + span)` over the positional span, `0` with fewer than two
tokens, terms, or hits. -/
def multi_term_proximity (text : String) (terms : List String) : ℚ :=
  let tokens := tokenise text
  if tokens.length < 2 ∨ terms.length < 2 then 0
  else
    let positions := (tokens.enum.filter
      (fun p => terms.any (fun t => containsSub p.2 t))).map (fun p => p.1)
    if positions.length < 2 then 0
    else
      let mx := positions.foldl max 0
      let mn := positions.foldl min mx
      max 0 (30 / (1 + ((mx - mn : ℕ) : ℚ)))

/-- Embedding of `routes.language_score`: `+40` on primary-language match,
`+8` on a matching first letter, `-10` otherwise, `0` for a falsy row
language. -/
def language_score (row_lang : Option String) (user_lang : String) : ℚ :=
  match row_lang with
  | none => 0
  | some rlang =>
    if rlang = "" then 0
    else
      let rl := String.mk ((pyLowerStr rlang).toList.takeWhile (· != '-'))
      let ul := String.mk ((pyLowerStr user_lang).toList.takeWhile (· != '-'))
      if rl = ul then 40
      else
        match rl.toList, ul.toList with
        | a :: _, b :: _ => if a = b then 8 else -10
        | _, _ => -10

/-- Embedding of `routes.field_score`: exact-phrase bonus in title or
description, saturating weighted hit sums over title/description/url, and the
proximity contributions. -/
def field_score (row : SRow) (terms : List String) (weights : String → ℚ) : ℚ :=
  let title := pyLowerStr (row.title.getD "")
  let desc := pyLowerStr (row.description.getD "")
  let url := pyLowerStr row.url
  let phrase := String.intercalate " " terms
  let score : ℚ :=
    if phrase ≠ "" ∧ containsSub title phrase then 90
    else if phrase ≠ "" ∧ containsSub desc phrase then 50
    else 0
  let title_hits := ((terms.filter (fun t => containsSub title t)).map weights).sum
  let desc_hits := ((terms.filter (fun t => containsSub desc t)).map weights).sum
  let url_hits := ((terms.filter (fun t => containsSub url t)).map weights).sum
  let score := score + saturation title_hits 4 * 70
  let score := score + saturation desc_hits 6 * 35
  let score := score + saturation url_hits 4 * 30
  let score := score + multi_term_proximity title terms * (8 / 5)
  score + multi_term_proximity desc terms

/-- Embedding of `routes.intent_boost`: `+180` for a navigational intent whose
slug occurs in the netloc. -/
def intent_boost (intent : String) (netloc : String) (nav_slug : Option String) : ℚ :=
  if intent = "navigational" then
    match nav_slug with
    | none => 0
    | some slug =>
      if slug = "" then 0
      else if containsSub netloc slug then 180 else 0
  else 0

/-- Embedding of `routes.matches_brand_phrase`: equality with the registered
domain, false when the latter is empty. -/
def matches_brand_phrase (raw_normalised_no_space row_domain_base : String) : Bool :=
  if row_domain_base = "" then false
  else raw_normalised_no_space == row_domain_base

/-- Embedding of the site/brand boost block at the end of
`routes.calculate_score`: `+240` (root) or `+80` for a site-directive match,
`+220` (root) or `+40` for a brand match; both can apply. -/
def siteBrandBoost (site_directive : Option String) (raw_brand_normalised : String)
    (domain row_domain_base : String) (is_root : Bool) : ℚ :=
  let site_part : ℚ :=
    match site_directive with
    | none => 0
    | some sdRaw =>
      if sdRaw = "" then 0
      else
        let sd := pyRstripSlash (pyLowerStr sdRaw)
        if sd ≠ "" ∧ (containsSub domain sd ∨ sd = row_domain_base) then
          if is_root then 240 else 80
        else 0
  let brand_part : ℚ :=
    if raw_brand_normalised = "" then 0
    else if matches_brand_phrase raw_brand_normalised row_domain_base then
      if is_root then 220 else 40
    else 0
  site_part + brand_part

/-- Embedding of `routes.calculate_score`: start at 100 and add the BM25,
authority, PageRank, freshness, TLD, URL-quality, language, field, intent and
site/brand signals, minus the per-domain count penalty. -/
def calculate_score (env : ScoreEnv) (row : SRow) (terms : List String)
    (weights : String → ℚ) (intent : String) (nav_slug : Option String)
    (domain_counts : String → ℕ) (site_directive : Option String)
    (raw_brand_normalised : String) (user_lang : String) : ℚ :=
  let row_url := row.url
  let parsedPath := pyPath row_url
  let domain := pyNetloc row_url
  let row_domain_base := env.extractDomain row_url
  let suffix := env.extractSuffix row_url
  let raw_bm25 := row.bm25.getD 0
  let score : ℚ := 100 + max 0 ((20 - raw_bm25) * 2)
  let score := score + authority_score env.log10 row.domain_rank
  let score := score + pagerank_score env.loge row.page_rank
  let score := score + freshness_score env.expe env.ageDays row.crawled_at
  let score := score + tld_bias suffix
  let score := score + url_quality parsedPath row_url
  let score := score + language_score row.language user_lang
  let score := score + field_score row terms weights
  let score := score + intent_boost intent domain nav_slug
  let score := score - (domain_counts domain : ℚ) * 15
  let is_root := parsedPath = "" ∨ parsedPath = "/"
  score + siteBrandBoost site_directive raw_brand_normalised domain row_domain_base
    (decide is_root)

/-! ## routes.py: the /search candidate pipeline -/

/-- Embedding of the candidate retrieval in `routes.search`: run the AND-joined
FTS query; when it yields fewer than 5 rows and there is more than one base
term, re-run with the same groups joined by OR.  The database is the parameter
`ftsExec`; the second component reports whether the fallback was triggered. -/
def runRetrieval (ftsExec : String → List SRow) (base_terms : List String) :
    List SRow × Bool :=
  let rows := ftsExec (build_fts_query base_terms "AND")
  if rows.length < 5 ∧ 1 < base_terms.length then
    (ftsExec (build_fts_query base_terms "OR"), true)
  else (rows, false)

/-- Embedding of the scoring loop in `routes.search`: skip rows whose
normalised URL was already seen, score the rest with `score1`
(`calculate_score` with the request context), and multiply by `0.8` when the
fallback was triggered. -/
def dedupScore (score1 : SRow → ℚ) (fallback_triggered : Bool) :
    List SRow → List String → List (ℚ × SRow)
  | [], _ => []
  | r :: rest, seen_norm =>
    let norm := normUrl r.url
    if norm ∈ seen_norm then dedupScore score1 fallback_triggered rest seen_norm
    else
      let score := score1 r
      let score := if fallback_triggered then score * (4 / 5) else score
      (score, r) :: dedupScore score1 fallback_triggered rest (norm :: seen_norm)

/-- Stable descending sort by score, the effect of Python
`sort(key=lambda x: x[0], reverse=True)`. -/
def sortByScoreDesc (l : List (ℚ × SRow)) : List (ℚ × SRow) :=
  l.mergeSort (fun a b => decide (b.1 ≤ a.1))

/-- Embedding of the per-domain penalty loop in `routes.search`: walk the
pre-scored rows, subtract `15 × (occurrences of the netloc so far)` from each
score and count the netloc. -/
def applyDiversity (domain_counts : String → ℕ) : List (ℚ × SRow) → List (ℚ × SRow)
  | [] => []
  | (score, row) :: rest =>
    let domain := pyNetloc row.url
    let count := domain_counts domain
    let penalty : ℚ := (count : ℚ) * 15
    (score - penalty, row) ::
      applyDiversity (fun d => if d = domain then count + 1 else domain_counts d) rest

/-- Embedding of the scored part of `routes.search` after retrieval: dedup and
score, sort descending, apply the diversity penalty, re-sort. -/
def finalScored (score1 : SRow → ℚ) (fallback_triggered : Bool) (rows : List SRow) :
    List (ℚ × SRow) :=
  sortByScoreDesc (applyDiversity (fun _ => 0)
    (sortByScoreDesc (dedupScore score1 fallback_triggered rows [])))

/-! ## routes.py: rate limiter -/

/-- The `RATE_LIMIT` table: per IP, the window start time and the accepted
count.  Keys are unique; `time.time()` values are modelled as integer seconds
(the limiter only compares time differences against the integral constant
`RATE_LIMIT_WINDOW = 60`). -/
def RLTable : Type := List (String × ℤ × ℕ)

/-- Dictionary lookup `RATE_LIMIT[ip]`. -/
def rlGet (ip : String) : RLTable → Option (ℤ × ℕ)
  | [] => none
  | (k, v) :: t => if k = ip then some v else rlGet ip t

/-- Dictionary assignment `RATE_LIMIT[ip] = v`. -/
def rlSet (ip : String) (v : ℤ × ℕ) : RLTable → RLTable
  | [] => [(ip, v)]
  | (k, w) :: t => if k = ip then (ip, v) :: t else (k, w) :: rlSet ip v t

/-- Embedding of `routes.check_rate_limit` with `now` passed explicitly:
clear the table over 10000 entries; accept a fresh IP or an expired window
with a reset `(now, 1)` entry; reject at 30 accepted requests in the current
window; otherwise increment. -/
def check_rate_limit (now : ℤ) (ip : String) (tbl : RLTable) : Bool × RLTable :=
  let tbl := if 10000 < tbl.length then ([] : RLTable) else tbl
  match rlGet ip tbl with
  | none => (true, rlSet ip (now, 1) tbl)
  | some (start, count) =>
    if 60 < now - start then (true, rlSet ip (now, 1) tbl)
    else if 30 ≤ count then (false, tbl)
    else (true, rlSet ip (start, count + 1) tbl)

/-- Runs `check_rate_limit` over a trace of timed requests, returning the
acceptance flag of each request in order. -/
def rlProcess : List (ℤ × String) → RLTable → List Bool
  | [], _ => []
  | (t, ip) :: rest, tbl =>
    let step := check_rate_limit t ip tbl
    step.1 :: rlProcess rest step.2

/-- Final table after running a trace of timed requests. -/
def rlFinal : List (ℤ × String) → RLTable → RLTable
  | [], tbl => tbl
  | (t, ip) :: rest, tbl => rlFinal rest (check_rate_limit t ip tbl).2

/-! ## crawler/bot.py: fetch worker -/

/-- Result of `DomainManager.can_crawl`. -/
inductive GovStatus where
  | cap_hit
  | penalty_box
  | politeness
  | ok
  deriving DecidableEq, Repr

/-- Outcome of `check_robots_allow`: `netFail` models the `None` returned on a
network failure while fetching robots.txt, the other two the boolean verdict. -/
inductive RobotsResult where
  | netFail
  | denied
  | allowed
  deriving DecidableEq, Repr

/-- A message pushed to the write queue by the fetch worker. -/
inductive WriteMsg where
  | status_update (status : ℕ) (url : String)
  | retry (url : String) (retry_count : ℕ)
  | reschedule (url : String) (seconds : ℕ)
  deriving DecidableEq, Repr

/-- Outcome of one `fetch_worker` iteration for a dequeued
`(url, retry_count)`: the write-queue message if any, whether the page body
was downloaded, whether the URL was forwarded to the parse queue, and which
`DomainManager` counter was touched. -/
structure FetchOutcome where
  writeMsg : Option WriteMsg
  downloaded : Bool
  toParse : Bool
  markedFailure : Bool
  markedSuccess : Bool
  deriving DecidableEq, Repr

/-- Embedding of the decision logic of `bot.fetch_worker` for one queue item.
The governance verdict, the robots verdict and the download result (the
`error` field of `download_page`, `none` on success) are inputs; the body is
a straight transcription of the branch structure of the worker. -/
def fetch_step (url : String) (retry_count : ℕ) (gov : GovStatus)
    (robots : RobotsResult) (dl_error : Option String) : FetchOutcome :=
  match gov with
  | .cap_hit =>
    ⟨some (.status_update 2 url), false, false, false, false⟩
  | .penalty_box =>
    if 5 ≤ retry_count then ⟨some (.status_update 3 url), false, false, false, false⟩
    else ⟨some (.retry url (retry_count + 1)), false, false, false, false⟩
  | .politeness =>
    ⟨some (.reschedule url 5), false, false, false, false⟩
  | .ok =>
    match robots with
    | .netFail => ⟨some (.retry url (retry_count + 1)), false, false, false, false⟩
    | .denied => ⟨some (.status_update 3 url), false, false, false, false⟩
    | .allowed =>
      match dl_error with
      | some _ =>
        if retry_count < 3 then
          ⟨some (.retry url (retry_count + 1)), true, false, true, false⟩
        else ⟨some (.status_update 3 url), true, false, true, false⟩
      | none => ⟨none, true, true, false, true⟩

/-! ## crawler/bot.py: DB writer -/

/-- The payload of a `save_page` message assembled by `bot.parse_worker`. -/
structure SavePage where
  url : String
  title : String
  description : String
  content : String
  content_hash : ℕ
  raw_html : String
  headers : String
  status : ℕ
  out_links : ℕ
  links_found : List String
  deriving DecidableEq, Repr

/-- A row batched for the `visited` table (the fields the writer computes
from the payload; the writer also stamps the current time, the crawl epoch,
the default domain rank 10000000 and page rank 0). -/
structure VisitedRow where
  url : String
  title : String
  description : String
  http_status : ℕ
  out_links : ℕ
  crawled_at : String
  content_hash : String
  deriving DecidableEq, Repr

/-- A row batched for the `html_storage` table. -/
structure StorageRow where
  url : String
  raw_html : String
  parsed_text : String
  title : String
  http_headers : String
  crawled_at : String
  deriving DecidableEq, Repr

/-- The in-memory state of `bot.db_writer` relevant to a `save_page` message:
the seen-hashes set (kept in insertion order; Python iterates a `set` in an
unspecified order, so eviction takes an arbitrary element) plus the
per-statement batches. -/
structure WriterState where
  seen_hashes : List String
  batch_visited : List VisitedRow
  batch_storage : List StorageRow
  batch_status : List (ℕ × String × String)
  batch_links : List (String × String × String × String)
  batch_frontier : List (String × String)
  deriving Repr

/-- Embedding of the bloom-guarded frontier extraction in `bot.db_writer`:
for each outbound link, consult the Bloom filter (`bloomMem` gives the lookup
results of the filter as loaded; `added` accumulates the links inserted during
this message) and batch unseen links for the frontier. -/
def frontierFold (bloomMem : String → Bool) :
    List String → List String → List (String × String) → List String × List (String × String)
  | [], added, batch => (added, batch)
  | link :: rest, added, batch =>
    if bloomMem link || added.contains link then frontierFold bloomMem rest added batch
    else frontierFold bloomMem rest (link :: added) (batch ++ [(link, pyNetloc link)])

/-- Embedding of the `save_page` branch of `bot.db_writer`: batch a `visited`
row unconditionally, batch a `storage` row only when the `h:`-prefixed hash is
not in the seen set, record the completed status, the link-graph edges and the
new frontier entries.  `pick` chooses the element removed by
`seen_hashes.pop()` when the set exceeds 10^6 entries (Python `set.pop`
removes an arbitrary element); `now` is the timestamp string. -/
def processSavePage (pick : List String → ℕ) (bloomMem : String → Bool)
    (now : String) (p : SavePage) (st : WriterState) : WriterState :=
  let safe_hash := "h:" ++ toString p.content_hash
  let is_duplicate := safe_hash ∈ st.seen_hashes
  let seen :=
    if is_duplicate then st.seen_hashes
    else
      let grown := st.seen_hashes ++ [safe_hash]
      if 1000000 < grown.length then grown.eraseIdx (pick grown % grown.length)
      else grown
  let batch_visited := st.batch_visited ++
    [⟨p.url, p.title, p.description, p.status, p.out_links, now, safe_hash⟩]
  let batch_storage :=
    if is_duplicate then st.batch_storage
    else st.batch_storage ++ [⟨p.url, p.raw_html, p.content, p.title, p.headers, now⟩]
  let batch_status := st.batch_status ++ [(2, now, p.url)]
  let src_domain := pyNetloc p.url
  let batch_links := st.batch_links ++
    (p.links_found.filter (fun link => p.url ≠ link)).map
      (fun link => (src_domain, pyNetloc link, p.url, link))
  let fr := frontierFold bloomMem p.links_found [] st.batch_frontier
  ⟨seen, batch_visited, batch_storage, batch_status, batch_links, fr.2⟩

/-! ## indexer.py: document title choice -/

/-- Embedding of the title selection in `indexer.run_indexer`:
`final_title = title if title else (url)`, then, only when that is still
falsy and there is text, the first line among the first three whose strip is
nonempty, stripped and truncated to 80 characters. -/
def chooseTitle (title : Option String) (url : String) (text : String) : String :=
  let final_title := match title with
    | none => url
    | some t => if t = "" then url else t
  if final_title = "" ∧ text ≠ "" then
    match ((text.splitOn "\n").take 3).find?
        (fun line => pyStripWS line != "") with
    | some line => String.mk ((pyStripWS line).toList.take 80)
    | none => final_title
  else final_title

/-! # Helper lemmas -/

theorem charToNat_ofNatInRange (n : ℕ) (h1 : 32 ≤ n) (h2 : n ≤ 122) :
    (Char.ofNat n).toNat = n := by
  have hv : n.isValidChar := Or.inl (by omega)
  simp [Char.ofNat, hv, Char.toNat, Char.ofNatAux, UInt32.toNat]

theorem char_beq_false_of_toNat_ne {a b : Char} (h : a.toNat ≠ b.toNat) :
    (a == b) = false := by
  simp only [beq_eq_false_iff_ne]
  intro hab
  exact h (by rw [hab])

theorem pyIsSpace_false_of_large {c : Char} (h : 48 ≤ c.toNat) :
    pyIsSpace c = false := by
  unfold pyIsSpace
  have h1 := @char_beq_false_of_toNat_ne c ' ' (by intro he; rw [he] at h; exact absurd h (by decide))
  have h2 := @char_beq_false_of_toNat_ne c '\t' (by intro he; rw [he] at h; exact absurd h (by decide))
  have h3 := @char_beq_false_of_toNat_ne c '\n' (by intro he; rw [he] at h; exact absurd h (by decide))
  have h4 := @char_beq_false_of_toNat_ne c '\r' (by intro he; rw [he] at h; exact absurd h (by decide))
  have h5 := @char_beq_false_of_toNat_ne c '\x0b' (by intro he; rw [he] at h; exact absurd h (by decide))
  have h6 := @char_beq_false_of_toNat_ne c '\x0c' (by intro he; rw [he] at h; exact absurd h (by decide))
  rw [h1, h2, h3, h4, h5, h6]
  rfl

theorem pyIsSpace_pyToLower (c : Char) : pyIsSpace (pyToLower c) = pyIsSpace c := by
  unfold pyToLower
  split
  case isTrue h =>
    have hl : (Char.ofNat (c.toNat + 32)).toNat = c.toNat + 32 :=
      charToNat_ofNatInRange _ (by omega) (by omega)
    rw [pyIsSpace_false_of_large (by omega : 48 ≤ c.toNat),
      pyIsSpace_false_of_large (by rw [hl]; omega)]
  case isFalse h => rfl

theorem groupRuns_ne_nil (keep : Char → Bool) :
    ∀ (l : List Char) (acc : List Char),
      (acc ≠ [] ∨ ∃ c ∈ l, keep c = true) → groupRuns keep l acc ≠ []
  | [], acc, h => by
    rcases h with h | ⟨c, hc, _⟩
    · simpa [groupRuns, List.isEmpty_iff] using fun he => h he
    · cases hc
  | c :: t, acc, h => by
    unfold groupRuns
    by_cases hk : keep c = true
    · rw [if_pos hk]
      exact groupRuns_ne_nil keep t (c :: acc) (Or.inl (by simp))
    · rw [if_neg hk]
      by_cases ha : acc.isEmpty = true
      · rw [if_pos ha]
        rcases h with h | ⟨d, hd, hkd⟩
        · exact absurd (List.isEmpty_iff.mp ha) h
        · rcases List.mem_cons.mp hd with rfl | hdt
          · exact absurd hkd hk
          · exact groupRuns_ne_nil keep t [] (Or.inr ⟨d, hdt, hkd⟩)
      · rw [if_neg ha]
        exact List.cons_ne_nil _ _

theorem exists_nonspace_of_pyStripWS_ne (s : String) (h : pyStripWS s ≠ "") :
    ∃ c ∈ s.toList, pyIsSpace c = false := by
  by_contra hno
  push_neg at hno
  apply h
  have hall : ∀ c ∈ s.toList, pyIsSpace c = true := by
    intro c hc
    have := hno c hc
    revert this
    cases pyIsSpace c <;> simp
  unfold pyStripWS
  rw [List.dropWhile_eq_nil_iff.mpr hall]
  rfl

theorem pySplitWS_lower_ne_nil (raw : String)
    (h : ∃ c ∈ raw.toList, pyIsSpace c = false) :
    pySplitWS (pyLowerStr raw) ≠ [] := by
  rcases h with ⟨c, hc, hns⟩
  apply groupRuns_ne_nil
  refine Or.inr ⟨pyToLower c, ?_, ?_⟩
  · show pyToLower c ∈ (String.mk (raw.toList.map pyToLower)).toList
    simpa using List.mem_map_of_mem pyToLower hc
  · simp [pyIsSpace_pyToLower, hns]

/-! # Claim theorems -/

/-- C10: every character of the `/icon` cache file name survives the
sanitiser class `[a-zA-Z0-9.-]` (plus the fixed `.ico` suffix, which is in
the class), the sanitised stem is at most 50 characters, and in particular no
path separator (`/` or `\`) can appear in the name, so the file handled by
`icon_proxy` is always a direct child of the icons directory. -/
theorem icon_filename_no_separator (domain : String) :
    (icon_sanitise domain).length ≤ 50 ∧
    (∀ c ∈ (icon_filename domain).toList, iconAllowed c = true) ∧
    '/' ∉ (icon_filename domain).toList ∧
    '\\' ∉ (icon_filename domain).toList := by
  have hlen : (icon_sanitise domain).length ≤ 50 := by
    show ((domain.toList.filter iconAllowed).take 50).length ≤ 50
    exact List.length_take_le 50 (domain.toList.filter iconAllowed)
  have hall : ∀ c ∈ (icon_filename domain).toList, iconAllowed c = true := by
    intro c hc
    have hc2 : c ∈ (icon_sanitise domain).toList ++ (".ico" : String).toList := by
      simpa [icon_filename] using hc
    rcases List.mem_append.mp hc2 with hstem | hsfx
    · have hmem : c ∈ (domain.toList.filter iconAllowed).take 50 := hstem
      exact (List.mem_filter.mp (List.mem_of_mem_take hmem)).2
    · fin_cases hsfx <;> rfl
  refine ⟨hlen, hall, ?_, ?_⟩
  · intro hmem
    exact absurd (hall '/' hmem) (by decide)
  · intro hmem
    exact absurd (hall '\\' hmem) (by decide)

/-- Witness for C10 at the concrete domain string `evil/../../etc`. -/
theorem icon_filename_no_separator_witness :
    iconAllowed 'e' = true ∧ '/' ∉ (icon_filename "evil/../../etc").toList :=
  ⟨(icon_filename_no_separator "evil/../../etc").2.1 'e' (by decide),
   (icon_filename_no_separator "evil/../../etc").2.2.1⟩

/-- C9: for a raw query that is non-empty after stripping (as `/search`
guarantees, having stripped and rejected empty queries), if
`normalise_tokens` yields no tokens then the base terms fall back to the raw
lower-cased whitespace-split words, and in every case the base-term list is
non-empty, so the request proceeds. -/
theorem searchBaseTerms_fallback (raw : String) (hne : pyStripWS raw ≠ "") :
    (normalise_tokens raw = [] → searchBaseTerms raw = pySplitWS (pyLowerStr raw)) ∧
    searchBaseTerms raw ≠ [] := by
  constructor
  · intro hz
    simp [searchBaseTerms, hz]
  · by_cases hz : normalise_tokens raw = []
    · rw [searchBaseTerms, hz, if_pos rfl]
      exact pySplitWS_lower_ne_nil raw (exists_nonspace_of_pyStripWS_ne raw hne)
    · rw [searchBaseTerms, if_neg hz]
      exact hz

/-- Witness for C9 at the query `c ??`, whose normalised tokens are empty
(the lone alphanumeric token has length 1). -/
theorem searchBaseTerms_fallback_witness :
    normalise_tokens "c ??" = [] ∧ searchBaseTerms "c ??" ≠ [] :=
  ⟨by decide, (searchBaseTerms_fallback "c ??" (by decide)).2⟩

/-- C8: the domain-authority contribution is exactly 0 for an absent or zero
`domain_rank` (Python falsy), and only a strictly positive rank is scored as
`min(160 / (1 + log10(rank + 10)), 60)`. -/
theorem authority_score_zero_rank (log10 : ℚ → ℚ) (r : ℕ) (hr : 0 < r) :
    authority_score log10 none = 0 ∧
    authority_score log10 (some 0) = 0 ∧
    authority_score log10 (some r) = min (160 / (1 + log10 ((r : ℚ) + 10))) 60 := by
  refine ⟨rfl, rfl, ?_⟩
  have hr0 : r ≠ 0 := Nat.pos_iff_ne_zero.mp hr
  simp [authority_score, hr0]

/-- Witness for C8 at rank 90 with the identity in place of `log10`. -/
theorem authority_score_zero_rank_witness :
    authority_score (fun x => x) (some 90) = min (160 / (1 + ((90 : ℚ) + 10))) 60 :=
  (authority_score_zero_rank (fun x => x) 90 (by decide)).2.2

/-- C5: when the download of an allowed URL ends in an error, the fetch
worker marks a domain failure and emits `retry(url, retry_count+1)` for
`retry_count < 3` and `status_update(url, 3)` otherwise; a robots network
failure emits `retry` without downloading; a robots denial emits
`status_update(url, 3)` without downloading the body. -/
theorem fetch_step_error_policy (url : String) (retry_count : ℕ) (e : String)
    (dl_error : Option String) :
    (fetch_step url retry_count .ok .allowed (some e) =
      ⟨some (if retry_count < 3 then .retry url (retry_count + 1)
             else .status_update 3 url), true, false, true, false⟩) ∧
    (fetch_step url retry_count .ok .netFail dl_error =
      ⟨some (.retry url (retry_count + 1)), false, false, false, false⟩) ∧
    (fetch_step url retry_count .ok .denied dl_error =
      ⟨some (.status_update 3 url), false, false, false, false⟩) := by
  refine ⟨?_, rfl, rfl⟩
  by_cases h : retry_count < 3 <;> simp [fetch_step, h]

/-- C6: evaluation of the indexer's title choice at a storage row with an
empty title, a non-empty URL and text whose first line is `Hello World`.  The
code keeps the URL: the `title if title else (url)` assignment runs first, so
the first-nonempty-line fallback stated by the spec is unreachable whenever
the URL is non-empty, and no 80-character truncation is applied to it. -/
theorem chooseTitle_url_shadows_text :
    chooseTitle (some "") "http://example.com" "Hello World\nMore text" =
      "http://example.com" ∧
    chooseTitle (some "") "http://example.com" "Hello World\nMore text" ≠
      "Hello World" := by
  constructor
  · rfl
  · decide

theorem dedupScore_mem_score (score1 : SRow → ℚ) (fb : Bool) :
    ∀ (rows : List SRow) (seen : List String) (p : ℚ × SRow),
      p ∈ dedupScore score1 fb rows seen →
      p.1 = if fb then score1 p.2 * (4 / 5) else score1 p.2
  | [], _, p, hp => absurd hp (List.not_mem_nil p)
  | r :: rest, seen, p, hp => by
    unfold dedupScore at hp
    by_cases hmem : normUrl r.url ∈ seen
    · rw [if_pos hmem] at hp
      exact dedupScore_mem_score score1 fb rest seen p hp
    · rw [if_neg hmem] at hp
      rcases List.mem_cons.mp hp with rfl | htail
      · cases fb <;> simp
      · exact dedupScore_mem_score score1 fb rest _ p htail

/-- C4: the OR fallback of `search` triggers exactly when the AND-joined FTS
query returns fewer than 5 rows and there is more than one base term; when it
triggers the candidate rows come from the same term groups joined with OR,
otherwise they are the AND rows; and every score the loop emits equals the
row score times `0.8` exactly when the fallback triggered. -/
theorem search_fallback_or_rescore (ftsExec : String → List SRow)
    (score1 : SRow → ℚ) (base_terms : List String) :
    ((runRetrieval ftsExec base_terms).2 = true ↔
      ((ftsExec (build_fts_query base_terms "AND")).length < 5 ∧ 1 < base_terms.length)) ∧
    ((runRetrieval ftsExec base_terms).2 = true →
      (runRetrieval ftsExec base_terms).1 = ftsExec (build_fts_query base_terms "OR")) ∧
    ((runRetrieval ftsExec base_terms).2 = false →
      (runRetrieval ftsExec base_terms).1 = ftsExec (build_fts_query base_terms "AND")) ∧
    (∀ (fb : Bool) (rows : List SRow) (p : ℚ × SRow),
      p ∈ dedupScore score1 fb rows [] →
      p.1 = if fb then score1 p.2 * (4 / 5) else score1 p.2) := by
  refine ⟨?_, ?_, ?_, fun fb rows p hp => dedupScore_mem_score score1 fb rows [] p hp⟩ <;>
    by_cases h : (ftsExec (build_fts_query base_terms "AND")).length < 5 ∧
        1 < base_terms.length <;>
      simp [runRetrieval, h]

/-- Witness for C4: a fallback-scored row whose emitted score is the raw
score 10 times 0.8. -/
theorem search_fallback_or_rescore_witness : (8 : ℚ) = (10 : ℚ) * (4 / 5) :=
  (search_fallback_or_rescore (fun _ => []) (fun _ => 10) ["x"]).2.2.2 true
    [⟨"https://a.com", none, none, none, none, none, none, none, none⟩]
    ((8 : ℚ), ⟨"https://a.com", none, none, none, none, none, none, none, none⟩)
    (by norm_num [dedupScore])

theorem applyDiversity_getElem :
    ∀ (l : List (ℚ × SRow)) (counts : String → ℕ) (i : ℕ),
      (applyDiversity counts l)[i]? = (l[i]?).map (fun p =>
        (p.1 - ((counts (pyNetloc p.2.url) + (l.take i).countP
            (fun q => pyNetloc q.2.url == pyNetloc p.2.url) : ℕ) : ℚ) * 15, p.2))
  | [], counts, i => by simp [applyDiversity]
  | (s, r) :: t, counts, 0 => by
    simp [applyDiversity]
  | (s, r) :: t, counts, Nat.succ j => by
    unfold applyDiversity
    simp only [List.getElem?_cons_succ, List.take_succ_cons, List.countP_cons]
    rw [applyDiversity_getElem t
      (fun d => if d = pyNetloc r.url then counts (pyNetloc r.url) + 1 else counts d) j]
    cases h : t[j]? with
    | none => simp
    | some p =>
      simp only [Option.map_some']
      congr 1
      have harith :
          (if pyNetloc p.2.url = pyNetloc r.url then counts (pyNetloc r.url) + 1
           else counts (pyNetloc p.2.url)) +
            (t.take j).countP (fun q => pyNetloc q.2.url == pyNetloc p.2.url) =
          counts (pyNetloc p.2.url) +
            ((t.take j).countP (fun q => pyNetloc q.2.url == pyNetloc p.2.url) +
              if (pyNetloc r.url == pyNetloc p.2.url) = true then 1 else 0) := by
        by_cases hd : pyNetloc p.2.url = pyNetloc r.url
        · rw [if_pos hd, hd, if_pos (by simp [hd])]
          omega
        · rw [if_neg hd, if_neg (by simp; exact fun he => hd he.symm)]
          omega
      rw [harith]

/-- C2: the diversity step of `search` first sorts the pre-scored rows in
descending score order, then, in that order and exactly once per row, the
final score of the row at position `i` is its pre-diversity score minus
`15 ×` the number of earlier rows with the same netloc; in particular a
domain's second row loses exactly 15 relative to scoring as its first. -/
theorem diversity_single_pass_penalty (pre : List (ℚ × SRow)) (i : ℕ) :
    (sortByScoreDesc pre).Pairwise (fun a b => b.1 ≤ a.1) ∧
    (applyDiversity (fun _ => 0) (sortByScoreDesc pre))[i]? =
      ((sortByScoreDesc pre)[i]?).map (fun p =>
        (p.1 - (((sortByScoreDesc pre).take i).countP
            (fun q => pyNetloc q.2.url == pyNetloc p.2.url) : ℚ) * 15, p.2)) := by
  constructor
  · have hp := @List.sorted_mergeSort (ℚ × SRow)
      (fun a b => decide (b.1 ≤ a.1))
      (fun a b c hab hbc => by
        simp only [decide_eq_true_eq] at *
        exact le_trans hbc hab)
      (fun a b => by
        simp only [Bool.or_eq_true, decide_eq_true_eq]
        exact le_total b.1 a.1)
      pre
    exact hp.imp (fun h => of_decide_eq_true h)
  · rw [applyDiversity_getElem (sortByScoreDesc pre) (fun _ => 0) i]
    cases hx : (sortByScoreDesc pre)[i]? <;> simp

theorem siteBrandBoost_none_empty (domain row_domain_base : String) (is_root : Bool) :
    siteBrandBoost none "" domain row_domain_base is_root = 0 := by
  simp [siteBrandBoost]

theorem calculate_score_split (env : ScoreEnv) (row : SRow) (terms : List String)
    (weights : String → ℚ) (intent : String) (nav_slug : Option String)
    (domain_counts : String → ℕ) (site_directive : Option String)
    (raw_brand_normalised : String) (user_lang : String) :
    calculate_score env row terms weights intent nav_slug domain_counts
        site_directive raw_brand_normalised user_lang =
      calculate_score env row terms weights intent nav_slug domain_counts
          none "" user_lang +
        siteBrandBoost site_directive raw_brand_normalised (pyNetloc row.url)
          (env.extractDomain row.url)
          (decide (pyPath row.url = "" ∨ pyPath row.url = "/")) := by
  simp only [calculate_score]
  rw [siteBrandBoost_none_empty, add_zero]

/-- C3 counterexample: for a row whose URL is the root page
`https://github.com` and a brand-normalised query equal to its registered
domain, the score boost (with no site directive) is exactly 220, not the 240
the claim states for every root-path match. -/
theorem site_brand_root_boost_not_240 :
    calculate_score
        ⟨fun _ => 0, fun _ => 0, fun _ => 0, fun _ => none,
         fun _ => "github", fun _ => "com"⟩
        ⟨"https://github.com", none, none, none, none, none, none, none, none⟩
        [] (fun _ => 0) "informational" none (fun _ => 0) none "github" "en" -
      calculate_score
        ⟨fun _ => 0, fun _ => 0, fun _ => 0, fun _ => none,
         fun _ => "github", fun _ => "com"⟩
        ⟨"https://github.com", none, none, none, none, none, none, none, none⟩
        [] (fun _ => 0) "informational" none (fun _ => 0) none "" "en" = 220 ∧
    (220 : ℚ) ≠ 240 := by
  constructor
  · rw [calculate_score_split, add_sub_cancel_left]
    norm_num [siteBrandBoost, matches_brand_phrase]
    rfl
  · norm_num

/-- C3 amended: a site-directive match boosts the row by 240 on a root path
and 80 otherwise, and a brand match boosts it by 220 on a root path and 40
otherwise (the claim's 240 for a root brand match is 220 in the code). -/
theorem site_brand_boost_values (env : ScoreEnv) (row : SRow) (terms : List String)
    (weights : String → ℚ) (intent : String) (nav_slug : Option String)
    (domain_counts : String → ℕ) (user_lang : String) (sd brand : String) :
    (sd ≠ "" → pyRstripSlash (pyLowerStr sd) ≠ "" →
      (containsSub (pyNetloc row.url) (pyRstripSlash (pyLowerStr sd)) = true ∨
        pyRstripSlash (pyLowerStr sd) = env.extractDomain row.url) →
      calculate_score env row terms weights intent nav_slug domain_counts
          (some sd) "" user_lang -
        calculate_score env row terms weights intent nav_slug domain_counts
          none "" user_lang =
        (if pyPath row.url = "" ∨ pyPath row.url = "/" then (240 : ℚ) else 80)) ∧
    (brand ≠ "" → env.extractDomain row.url ≠ "" → brand = env.extractDomain row.url →
      calculate_score env row terms weights intent nav_slug domain_counts
          none brand user_lang -
        calculate_score env row terms weights intent nav_slug domain_counts
          none "" user_lang =
        (if pyPath row.url = "" ∨ pyPath row.url = "/" then (220 : ℚ) else 40)) := by
  constructor
  · intro h1 h2 h3
    rw [calculate_score_split, add_sub_cancel_left]
    by_cases hroot : pyPath row.url = "" ∨ pyPath row.url = "/" <;>
      simp [siteBrandBoost, h1, h2, h3, hroot]
  · intro h1 h2 h3
    rw [calculate_score_split, add_sub_cancel_left]
    by_cases hroot : pyPath row.url = "" ∨ pyPath row.url = "/" <;>
      simp [siteBrandBoost, matches_brand_phrase, h1, h2, h3.symm, hroot]

/-- Witness for C3 at the root row `https://github.com` with the site
directive `github.com`. -/
theorem site_brand_boost_values_witness :
    calculate_score
        ⟨fun _ => 0, fun _ => 0, fun _ => 0, fun _ => none,
         fun _ => "github", fun _ => "com"⟩
        ⟨"https://github.com", none, none, none, none, none, none, none, none⟩
        [] (fun _ => 0) "informational" none (fun _ => 0) (some "github.com") "" "en" -
      calculate_score
        ⟨fun _ => 0, fun _ => 0, fun _ => 0, fun _ => none,
         fun _ => "github", fun _ => "com"⟩
        ⟨"https://github.com", none, none, none, none, none, none, none, none⟩
        [] (fun _ => 0) "informational" none (fun _ => 0) none "" "en" =
      (if pyPath "https://github.com" = "" ∨ pyPath "https://github.com" = "/"
       then (240 : ℚ) else 80) :=
  (site_brand_boost_values
      ⟨fun _ => 0, fun _ => 0, fun _ => 0, fun _ => none,
       fun _ => "github", fun _ => "com"⟩
      ⟨"https://github.com", none, none, none, none, none, none, none, none⟩
      [] (fun _ => 0) "informational" none (fun _ => 0) "en" "github.com" "").1
    (by decide) (by decide) (Or.inl (by decide))

/-- C1 counterexample: with the seen-hashes set seeded from disk with the
very hash both pages carry, two distinct URLs with identical content both get
a `visited` batch row but zero — not exactly one — `storage` batch rows are
written in this run. -/
theorem db_writer_seeded_hash_skips_storage :
    (processSavePage (fun _ => 0) (fun _ => false) "t"
        ⟨"http://b.com/y", "", "", "c", 5, "r", "h", 200, 0, []⟩
        (processSavePage (fun _ => 0) (fun _ => false) "t"
          ⟨"http://a.com/x", "", "", "c", 5, "r", "h", 200, 0, []⟩
          ⟨["h:5"], [], [], [], [], []⟩)).batch_visited.length = 2 ∧
    (processSavePage (fun _ => 0) (fun _ => false) "t"
        ⟨"http://b.com/y", "", "", "c", 5, "r", "h", 200, 0, []⟩
        (processSavePage (fun _ => 0) (fun _ => false) "t"
          ⟨"http://a.com/x", "", "", "c", 5, "r", "h", 200, 0, []⟩
          ⟨["h:5"], [], [], [], [], []⟩)).batch_storage.length = 0 ∧
    (0 : ℕ) ≠ 1 := by
  refine ⟨rfl, rfl, by decide⟩

/-- C1 amended: for every `save_page` message a `visited` row is batched
unconditionally and a `storage` row is batched exactly when the
`h:`-prefixed hash is not in the seen set; consequently, two distinct URLs
with byte-identical content (hence, SimHash being deterministic, equal
hashes) processed in one run whose hash is not already in the seeded set, and
which do not overflow the 10^6 cap (eviction takes an arbitrary set element),
yield two `visited` rows and exactly one `storage` row. -/
theorem db_writer_dedup (pick : List String → ℕ) (bloomMem : String → Bool)
    (now : String) (p p1 p2 : SavePage) (st st0 : WriterState)
    (hhash : p1.content_hash = p2.content_hash)
    (hnew : ("h:" ++ toString p1.content_hash) ∉ st0.seen_hashes)
    (hcap : st0.seen_hashes.length + 1 ≤ 1000000) :
    (processSavePage pick bloomMem now p st).batch_visited.length =
      st.batch_visited.length + 1 ∧
    (processSavePage pick bloomMem now p st).batch_storage.length =
      st.batch_storage.length +
        (if ("h:" ++ toString p.content_hash) ∈ st.seen_hashes then 0 else 1) ∧
    (processSavePage pick bloomMem now p2
        (processSavePage pick bloomMem now p1 st0)).batch_visited.length =
      st0.batch_visited.length + 2 ∧
    (processSavePage pick bloomMem now p2
        (processSavePage pick bloomMem now p1 st0)).batch_storage.length =
      st0.batch_storage.length + 1 := by
  have hgen_v : ∀ (q : SavePage) (s : WriterState),
      (processSavePage pick bloomMem now q s).batch_visited.length =
        s.batch_visited.length + 1 := by
    intro q s
    simp [processSavePage]
  have hgen_s_dup : ∀ (q : SavePage) (s : WriterState),
      ("h:" ++ toString q.content_hash) ∈ s.seen_hashes →
      (processSavePage pick bloomMem now q s).batch_storage = s.batch_storage := by
    intro q s hd
    simp only [processSavePage]
    rw [if_pos hd]
  have hgen_s_new : ∀ (q : SavePage) (s : WriterState),
      ("h:" ++ toString q.content_hash) ∉ s.seen_hashes →
      (processSavePage pick bloomMem now q s).batch_storage.length =
        s.batch_storage.length + 1 := by
    intro q s hd
    simp only [processSavePage]
    rw [if_neg hd]
    simp
  have hlen1 : ¬ (1000000 <
      (st0.seen_hashes ++ ["h:" ++ toString p1.content_hash]).length) := by
    rw [List.length_append, List.length_singleton]
    omega
  have hseen1 : (processSavePage pick bloomMem now p1 st0).seen_hashes =
      st0.seen_hashes ++ ["h:" ++ toString p1.content_hash] := by
    simp only [processSavePage]
    rw [if_neg hnew, if_neg hlen1]
  have hdup2 : ("h:" ++ toString p2.content_hash) ∈
      (processSavePage pick bloomMem now p1 st0).seen_hashes := by
    rw [hseen1, ← hhash]
    exact List.mem_append_right _ (List.mem_singleton_self _)
  refine ⟨hgen_v p st, ?_, ?_, ?_⟩
  · by_cases hd : ("h:" ++ toString p.content_hash) ∈ st.seen_hashes
    · rw [if_pos hd, hgen_s_dup p st hd]
      omega
    · rw [if_neg hd, hgen_s_new p st hd]
  · rw [hgen_v, hgen_v]
  · rw [congrArg List.length (hgen_s_dup p2 _ hdup2), hgen_s_new p1 st0 hnew]

/-- Witness for C1 at two concrete pages with equal hash 7 and an empty
initial writer state. -/
theorem db_writer_dedup_witness :
    (processSavePage (fun _ => 0) (fun _ => false) "t"
        ⟨"http://b.com/y", "", "", "c", 7, "r", "h", 200, 0, []⟩
        (processSavePage (fun _ => 0) (fun _ => false) "t"
          ⟨"http://a.com/x", "", "", "c", 7, "r", "h", 200, 0, []⟩
          ⟨[], [], [], [], [], []⟩)).batch_storage.length = 0 + 1 :=
  (db_writer_dedup (fun _ => 0) (fun _ => false) "t"
      ⟨"http://a.com/x", "", "", "c", 7, "r", "h", 200, 0, []⟩
      ⟨"http://a.com/x", "", "", "c", 7, "r", "h", 200, 0, []⟩
      ⟨"http://b.com/y", "", "", "c", 7, "r", "h", 200, 0, []⟩
      ⟨[], [], [], [], [], []⟩ ⟨[], [], [], [], [], []⟩
      rfl (by decide) (by decide)).2.2.2

/-- C7 counterexample: a trace of requests from one IP in which 59 requests
whose times all lie in the 60-second window `[1, 61]` are accepted — the
limiter resets its window anchor at the first request after expiry, so a
rolling 60-second window can see far more than 30 accepted requests. -/
theorem rate_limit_rolling_window_violated :
    List.countP
        (fun p => p.2 && decide ((1 : ℤ) ≤ p.1.1) && decide (p.1.1 ≤ 61))
        (List.zip
          ((0, "a") :: (List.replicate 29 ((59 : ℤ), "a") ++
            List.replicate 30 ((61 : ℤ), "a")))
          (rlProcess
            ((0, "a") :: (List.replicate 29 ((59 : ℤ), "a") ++
              List.replicate 30 ((61 : ℤ), "a")))
            [])) = 59 ∧
    (61 : ℤ) - 1 ≤ 60 ∧ ¬(59 ≤ 30) := by
  refine ⟨by decide, by decide, by decide⟩

theorem countP_id_cons_true (l : List Bool) :
    (true :: l).countP id = l.countP id + 1 := by
  simp [List.countP_cons]

theorem countP_id_cons_false (l : List Bool) :
    (false :: l).countP id = l.countP id := by
  simp [List.countP_cons]

theorem rlCountAux (ip : String) (t0 : ℤ) :
    ∀ (ts : List ℤ) (c : ℕ), (∀ t ∈ ts, ¬ 60 < t - t0) → c ≤ 30 →
      (rlProcess (ts.map (fun t => (t, ip))) [(ip, (t0, c))]).countP id + c ≤ 30
  | [], c, _, hc => by
    simpa [rlProcess] using hc
  | t :: ts, c, h, hc => by
    have ht := h t (List.mem_cons_self t ts)
    have hts : ∀ x ∈ ts, ¬ 60 < x - t0 := fun x hx => h x (List.mem_cons.mpr (Or.inr hx))
    by_cases h30 : 30 ≤ c
    · have hstep : check_rate_limit t ip [(ip, (t0, c))] = (false, [(ip, (t0, c))]) := by
        simp [check_rate_limit, rlGet, rlSet, ht, h30]
      have IH := rlCountAux ip t0 ts c hts hc
      simp only [List.map_cons, rlProcess, hstep]
      rw [countP_id_cons_false]
      exact IH
    · have hstep : check_rate_limit t ip [(ip, (t0, c))] =
          (true, [(ip, (t0, c + 1))]) := by
        simp [check_rate_limit, rlGet, rlSet, ht, h30]
      have IH := rlCountAux ip t0 ts (c + 1) hts (by omega)
      simp only [List.map_cons, rlProcess, hstep]
      rw [countP_id_cons_true]
      omega

/-- C7 amended: the limiter clears its table past 10000 tracked IPs and then
accepts the current request afresh; a request is rejected exactly when its
IP's stored window is unexpired and already holds 30 accepted requests; and
along any trace of requests from one IP whose times stay within 60 seconds of
the first (one anchored window), at most 30 requests are accepted.  The
window is anchored at the first request after each reset, not rolling. -/
theorem rate_limit_fixed_window (now : ℤ) (ip : String) (tbl : RLTable)
    (t0 : ℤ) (ts : List ℤ) (hts : ∀ t ∈ ts, ¬ 60 < t - t0) :
    (10000 < tbl.length → check_rate_limit now ip tbl = (true, [(ip, (now, 1))])) ∧
    (∀ s c, rlGet ip (if 10000 < tbl.length then ([] : RLTable) else tbl) = some (s, c) →
      ((check_rate_limit now ip tbl).1 = false ↔ (¬ 60 < now - s ∧ 30 ≤ c))) ∧
    (rlGet ip (if 10000 < tbl.length then ([] : RLTable) else tbl) = none →
      (check_rate_limit now ip tbl).1 = true) ∧
    (rlProcess ((t0 :: ts).map (fun t => (t, ip))) []).countP id ≤ 30 := by
  refine ⟨?_, ?_, ?_, ?_⟩
  · intro h
    simp [check_rate_limit, h, rlGet, rlSet]
  · intro s c hg
    simp only [check_rate_limit]
    rw [hg]
    by_cases h60 : 60 < now - s
    · simp [h60]
    · by_cases h30 : 30 ≤ c
      · simp [h60, h30]
      · simp [h60, h30]
  · intro hg
    simp only [check_rate_limit]
    rw [hg]
  · have hfirst : check_rate_limit t0 ip [] = (true, [(ip, (t0, 1))]) := by
      simp [check_rate_limit, rlGet, rlSet]
    simp only [List.map_cons, rlProcess, hfirst]
    rw [countP_id_cons_true]
    have := rlCountAux ip t0 ts 1 hts (by omega)
    omega

/-- Witness for C7 at a three-request anchored trace from one IP. -/
theorem rate_limit_fixed_window_witness :
    (rlProcess (((0 : ℤ) :: [10, 20]).map (fun t => (t, "a"))) []).countP id ≤ 30 :=
  (rate_limit_fixed_window 0 "a" [] 0 [10, 20] (by decide)).2.2.2

end Vigilare
